import Mathlib

/-!
Verification of the run/action timeline state machine of a browser-based
coding-assistant UI (code editor + chat sidebar driven by server events).

The definitions below are a shallow embedding of the sources:
* `handleWSMessage` embeds the event reducer of the web-socket hook
  (`useWebSocket`): one inbound server event mutates the run registry and
  the session flags.
* `sendPrompt` and `cancelCurrentTask` embed the control-channel hook
  (`useChat`); network calls are modelled by an explicit outcome parameter
  (success / non-ok HTTP response / rejected fetch), and the value of the
  session state at the moment the request is issued is returned alongside
  the final state so that before/after properties can be stated.
* `timelineActions`, `pendingExecRequest`, `handleRejectExecution` and
  `handleAcceptExecution` embed the corresponding pieces of `App.tsx`.
* The run registry itself (`createRun`, `addAction`, `updateAction`) is the
  RunContext, whose source is not part of the provided files; it is modelled
  from the specification (see the doc comments of those definitions).

Conventions of the embedding: JavaScript `undefined`/missing fields are
`Option.none`; the millisecond clock `Date.now()` is an explicit `Nat`
parameter `now`; `new Date().toISOString()` is modelled as the rendered
clock value; dynamic event payloads are records whose projections mirror the
optional-chaining field accesses of the source.
-/

namespace CodeAgent

/-- Lifecycle status of a timeline action (`'running' | 'done' | 'failed'`). -/
inductive Status
  | running
  | done
  | failed
deriving DecidableEq, Repr

/-- The `kind` discriminator of a timeline action. `undef` models a record
whose `kind` field is absent (a JavaScript object spread of `undefined`). -/
inductive Kind
  | user_message
  | tool_started
  | exec_request
  | tool_completed
  | tool_failed
  | exec_result
  | assistant_thought
  | final_answer
  | system_notice
  | undef
deriving DecidableEq, Repr

/-- Arguments object of a tool call; `response_on_reject` mirrors the field
read by the reducer, `rawArgs` stands for the remaining (opaque) fields. -/
structure ToolArgs where
  response_on_reject : Option String := none
  rawArgs : String := ""
deriving DecidableEq, Repr

/-- `toolCall.function` of a server event: tool name plus optional arguments. -/
structure ToolFunction where
  name : String
  arguments : Option ToolArgs := none
deriving DecidableEq, Repr

/-- A tool-call descriptor (`{id, function}`). -/
structure ToolCall where
  id : String
  function : ToolFunction
deriving DecidableEq, Repr

/-- Opaque tool output (`output_data`): either a plain string or an object
that may carry a `new_code` field (the rest is opaque). -/
inductive OutputData
  | str (s : String)
  | obj (new_code : Option String) (rawData : String)
deriving DecidableEq, Repr

/-- `event.data.result` of a completed-tool event. -/
structure ToolResult where
  tool_call : Option ToolCall := none
  output_data : Option OutputData := none
deriving DecidableEq, Repr

/-- A decoded server event. `dataArgs0` is `event.data?.args?.[0]`,
`dataResult` is `event.data?.result`, and `dataStr` is the payload used by
`agent_output` (where `data` is the answer string). -/
structure AgentEvent where
  event_type : String
  task_id : String
  timestamp : String
  dataArgs0 : Option ToolCall := none
  dataResult : Option ToolResult := none
  dataStr : String := ""
  error : Option String := none
deriving DecidableEq, Repr

/-- A timeline action record. All payload fields are optional because each
kind populates only its own fields (JavaScript objects); `id`, `kind` and
`status` are always present in every record the code constructs, with
`id := ""` / `kind := .undef` standing for an absent field. -/
structure Action where
  id : String
  kind : Kind
  status : Status
  timestamp : Option String := none
  toolName : Option String := none
  arguments : Option ToolArgs := none
  responseOnReject : Option String := none
  result : Option OutputData := none
  error : Option String := none
  content : Option String := none
  message : Option String := none
  output : Option String := none
deriving DecidableEq, Repr

/-- A run: task identifier, originating prompt, ordered action sequence. -/
structure Run where
  taskId : String
  prompt : String
  actions : List Action
deriving DecidableEq, Repr

/-- The run registry: the `runs` mapping (kept in insertion order) and the
`runOrder` list of task identifiers in creation order. -/
structure Registry where
  runs : List Run := []
  runOrder : List String := []
deriving DecidableEq, Repr

/-- Lookup of `runs[taskId]`. -/
def findRun (reg : Registry) (taskId : String) : Option Run :=
  reg.runs.find? (fun r => r.taskId == taskId)

/-- Modelled from the spec: the Run Registry (RunContext) implementation is
not among the provided source files; per the specification it maps task
identifiers to runs. `modifyRun` applies a function to the run with the given
task identifier and leaves the registry unchanged ("fails silently") when the
identifier is unknown. -/
def modifyRun (reg : Registry) (taskId : String) (g : Run → Run) : Registry :=
  { reg with runs := reg.runs.map (fun r => if r.taskId == taskId then g r else r) }

/-- Modelled from the spec: `createRun(taskId, prompt)` of the missing
RunContext "inserts a new Run with empty action sequence if taskId is absent;
no-op if present. Appends taskId to runOrder." -/
def createRun (reg : Registry) (taskId prompt : String) : Registry :=
  match findRun reg taskId with
  | some _ => reg
  | none =>
    { runs := reg.runs ++ [{ taskId := taskId, prompt := prompt, actions := [] }],
      runOrder := reg.runOrder ++ [taskId] }

/-- Modelled from the spec: `addAction(taskId, action)` of the missing
RunContext "appends action to the target run's sequence. Fails silently
(logged) if taskId is unknown." -/
def addAction (reg : Registry) (taskId : String) (a : Action) : Registry :=
  modifyRun reg taskId (fun r => { r with actions := r.actions ++ [a] })

/-- Upsert on an action list, keyed by `actionId`: replace the first action
with that identifier by `f (some it)`, or append `f none` when absent. -/
def upsertList (l : List Action) (actionId : String) (f : Option Action → Action) :
    List Action :=
  match l with
  | [] => [f none]
  | a :: rest =>
    if a.id == actionId then f (some a) :: rest else a :: upsertList rest actionId f

/-- Modelled from the spec: `updateAction(taskId, actionId, updater)` of the
missing RunContext "looks up the existing action with actionId in the run (or
undefined if absent), applies updater(existing) to produce a new or merged
action, and upserts it — inserting if absent, replacing if present";
insertion preserves insertion order, i.e. appends. Unknown task identifiers
are ignored like in `addAction`. -/
def updateAction (reg : Registry) (taskId actionId : String)
    (f : Option Action → Action) : Registry :=
  modifyRun reg taskId (fun r => { r with actions := upsertList r.actions actionId f })

/-- The kind of a synthesized (time-based) identifier, one per template
string occurring in the sources. -/
inductive SynthKind
  | answer
  | cancel
  | fail
  | thought
  | userMsg
  | reject
  | execResult
deriving DecidableEq, Repr

/-- The literal template in front of the millisecond clock for each
synthesized identifier. -/
def synthPrefix : SynthKind → String
  | .answer => "answer_"
  | .cancel => "cancel_"
  | .fail => "fail_"
  | .thought => "thought_"
  | .userMsg => "user_"
  | .reject => "reject_"
  | .execResult => "exec_result_"

/-- A synthesized identifier, e.g. `answer_${Date.now()}`. -/
def synthId (k : SynthKind) (now : Nat) : String :=
  synthPrefix k ++ toString now

/-- The whole client-side session state: the run registry plus the React
state of `App` that the embedded handlers read or write. -/
structure SessionState where
  reg : Registry := {}
  loading : Bool := false
  currentTaskId : Option String := none
  cancelling : Bool := false
  proposedCode : Option String := none
  input : String := ""
  code : String := ""
  executingCode : Bool := false
  executionAction : Option String := none
deriving DecidableEq, Repr

/-- The updater passed to `updateAction` by the tool_action_completed branch
of the reducer: `prev => ({...(prev ?? default), kind: tool_completed,
status: done, result: output_data})`. -/
def completedUpdater (toolCall : ToolCall) (event : AgentEvent) (resp : ToolResult) :
    Option Action → Action := fun prev =>
  match prev with
  | some p =>
    { p with
      kind := .tool_completed
      status := .done
      result := resp.output_data }
  | none =>
    { id := toolCall.id
      kind := .tool_completed
      status := .done
      toolName := some toolCall.function.name
      timestamp := some event.timestamp
      result := resp.output_data }

/-- The synthesized assistant_thought action inserted by the reducer when the
think tool completes with a plain-string output. -/
def thoughtAction (s : String) (event : AgentEvent) (now : Nat) : Action :=
  { id := synthId .thought now
    kind := .assistant_thought
    status := .done
    content := some s
    timestamp := some event.timestamp }

/-- The extra (synthesized) actions that the tool_action_completed branch
appends after the upsert: the assistant_thought when the tool is `think` and
its output a plain string, nothing otherwise. Used to state C1. -/
def thinkExtra (tc : ToolCall) (resp : ToolResult) (ev : AgentEvent) (now : Nat) :
    List Action :=
  match resp.output_data with
  | some (.str s) =>
    if tc.function.name = "think" then [thoughtAction s ev now] else []
  | _ => []

/-- The event reducer `handleWSMessage` of the `useWebSocket` hook: processes
one decoded server event. `now` is the millisecond clock used for the
synthesized identifiers. -/
def handleWSMessage (σ : SessionState) (event : AgentEvent) (now : Nat) : SessionState :=
  if event.event_type = "progress_update_tool_action_started" then
    match event.dataArgs0 with
    | none => σ
    | some toolCall =>
      let startAction : Action :=
        if toolCall.function.name = "request_code_execution" then
          { id := toolCall.id
            kind := .exec_request
            status := .running
            timestamp := some event.timestamp
            responseOnReject := toolCall.function.arguments.bind
              (fun a => a.response_on_reject) }
        else
          { id := toolCall.id
            kind := .tool_started
            status := .running
            timestamp := some event.timestamp
            toolName := some toolCall.function.name
            arguments := toolCall.function.arguments }
      { σ with reg := addAction σ.reg event.task_id startAction }
  else if event.event_type = "progress_update_tool_action_completed" then
    match event.dataResult with
    | none => σ
    | some resp =>
      match resp.tool_call with
      | none => σ
      | some toolCall =>
        -- If this is an edit_code tool completion, propose the code change
        -- (truthiness of `new_code` in the source: present and non-empty).
        let σ1 :=
          match resp.output_data with
          | some (.obj (some nc) _) =>
            if toolCall.function.name = "edit_code" ∧ nc ≠ "" then
              { σ with proposedCode := some nc }
            else σ
          | _ => σ
        if toolCall.function.name = "request_code_execution" then
          -- exec result action created after user accepts, skip for now
          σ1
        else
          -- the registry lives in the RunContext, disjoint from the React
          -- state touched by setProposedCode, so σ1.reg = σ.reg here
          let reg1 := updateAction σ.reg event.task_id toolCall.id
            (completedUpdater toolCall event resp)
          let reg2 :=
            match resp.output_data with
            | some (.str s) =>
              if toolCall.function.name = "think" then
                addAction reg1 event.task_id (thoughtAction s event now)
              else reg1
            | _ => reg1
          { σ1 with reg := reg2 }
  else if event.event_type = "progress_update_tool_action_failed" then
    match event.dataArgs0 with
    | none => σ
    | some toolCall =>
      let reg1 := updateAction σ.reg event.task_id toolCall.id (fun prev =>
        match prev with
        | some p => { p with kind := .tool_failed, status := .failed, error := event.error }
        | none =>
          { id := toolCall.id
            kind := .tool_failed
            status := .failed
            toolName := some toolCall.function.name
            timestamp := some event.timestamp
            error := event.error })
      { σ with reg := reg1 }
  else if event.event_type = "agent_output" then
    let answerAction : Action :=
      { id := synthId .answer now
        kind := .final_answer
        status := .done
        content := some event.dataStr
        timestamp := some event.timestamp }
    { σ with
      reg := addAction σ.reg event.task_id answerAction
      loading := false
      currentTaskId := none }
  else if event.event_type = "run_cancelled" then
    let notice : Action :=
      { id := synthId .cancel now
        kind := .system_notice
        status := .done
        message := some "Task was cancelled."
        timestamp := some event.timestamp }
    { σ with
      reg := addAction σ.reg event.task_id notice
      loading := false
      cancelling := false
      currentTaskId := none }
  else if event.event_type = "run_failed" then
    let notice : Action :=
      { id := synthId .fail now
        kind := .system_notice
        status := .done
        message := some "Failed to get agent response."
        timestamp := some event.timestamp }
    { σ with
      reg := addAction σ.reg event.task_id notice
      loading := false
      cancelling := false
      currentTaskId := none }
  else
    σ

/-- `timelineActions` of `App.tsx`: the flattened action sequence, runs taken
in creation order, each run's actions in internal order. -/
def timelineActions (reg : Registry) : List Action :=
  reg.runOrder.flatMap (fun id => ((findRun reg id).map Run.actions).getD [])

/-- The predicate of the `find` callback in `pendingExecRequest`:
`a.kind === 'exec_request' && a.status === 'running'`. -/
def isPendingExec (a : Action) : Bool :=
  a.kind == Kind.exec_request && a.status == Status.running

/-- `pendingExecRequest` of `App.tsx`: `null` on an empty timeline, otherwise
the result of `find` on the reversed flattened timeline. -/
def pendingExecRequest (reg : Registry) : Option Action :=
  let tl := timelineActions reg
  if tl.length = 0 then none
  else tl.reverse.find? isPendingExec

/-- The specification's own description of the pending execution request
("the most recent exec_request action, across all runs in creation order,
whose status is still running"): the last element of the flattened timeline
satisfying the predicate. Stated independently of `pendingExecRequest` so
the two can be compared. -/
def pendingExecRequestSpec (reg : Registry) : Option Action :=
  ((timelineActions reg).filter isPendingExec).getLast?

/-- Executable model of `input.trim()` (JavaScript String.prototype.trim):
strips leading and trailing whitespace. -/
def jsTrim (s : String) : String :=
  String.mk (((s.data.dropWhile Char.isWhitespace).reverse.dropWhile
    Char.isWhitespace).reverse)

/-- Body of the enqueue request issued by `sendPrompt`. -/
structure EnqueueBody where
  query : String
  code : String
  message_history : List (String × String)
deriving DecidableEq, Repr

/-- The message history computed by `sendPrompt`: for every run in creation
order, one `(assistant, content)` pair per `final_answer` action. -/
def messageHistory (reg : Registry) : List (String × String) :=
  reg.runOrder.flatMap (fun id =>
    match findRun reg id with
    | none => []
    | some run =>
      (run.actions.filter (fun a => a.kind == Kind.final_answer)).map
        (fun a => ("assistant", a.content.getD "")))

/-- Outcome of the enqueue fetch: success with the returned task identifier,
a non-ok HTTP response, or a rejected fetch (transport error). -/
inductive EnqueueOutcome
  | ok (task_id : String)
  | httpErr
  | netErr
deriving DecidableEq, Repr

/-- Result of a control-channel call: the session state at the moment the
request goes out (`none` when no request is issued), the final session
state once the call has run to completion (or its rejection has propagated),
and the request body that was sent. -/
structure SendResult where
  atRequest : Option SessionState
  final : SessionState
  request : Option EnqueueBody
deriving DecidableEq, Repr

/-- `sendPrompt` of the `useChat` hook. Blank input is a no-op. Otherwise the
loading flag is set and the input buffer cleared, then the enqueue request is
issued; on success the run is created, marked active, and a `user_message`
action stored; on a non-ok response only the loading flag is cleared. A
rejected fetch propagates out of the (catch-less) async function, so none of
the statements after the `await` run and the optimistic mutations persist. -/
def sendPrompt (σ : SessionState) (now : Nat) (outcome : EnqueueOutcome) : SendResult :=
  if jsTrim σ.input = "" then { atRequest := none, final := σ, request := none }
  else
    let σ1 : SessionState := { σ with loading := true, input := "" }
    let body : EnqueueBody :=
      { query := σ.input
        code := σ.proposedCode.getD σ.code
        message_history := messageHistory σ.reg }
    match outcome with
    | .ok task_id =>
      let reg1 := createRun σ1.reg task_id σ.input
      let userAction : Action :=
        { id := synthId .userMsg now
          kind := .user_message
          status := .done
          content := some σ.input
          timestamp := some (toString now) }
      let reg2 := addAction reg1 task_id userAction
      { atRequest := some σ1
        final := { σ1 with reg := reg2, currentTaskId := some task_id }
        request := some body }
    | .httpErr =>
      { atRequest := some σ1, final := { σ1 with loading := false }, request := some body }
    | .netErr =>
      { atRequest := some σ1, final := σ1, request := some body }

/-- Outcome of the cancel fetch. -/
inductive CancelOutcome
  | ok
  | httpErr
  | netErr
deriving DecidableEq, Repr

/-- Result of `cancelCurrentTask`: state at the moment the cancel request is
issued (`none` when none is), final state, and whether a request went out. -/
structure CancelResult where
  atRequest : Option SessionState
  final : SessionState
  requestIssued : Bool
deriving DecidableEq, Repr

/-- `cancelCurrentTask` of the `useChat` hook: no-op without an active task
or while a cancellation is in flight; otherwise sets the cancelling flag,
issues the cancel request, and clears the flag again on a non-ok response or
a transport error (which, here, is caught). -/
def cancelCurrentTask (σ : SessionState) (outcome : CancelOutcome) : CancelResult :=
  match σ.currentTaskId with
  | none => { atRequest := none, final := σ, requestIssued := false }
  | some tid =>
    -- `if (!currentTaskId || cancelling) return;` — the empty string is falsy
    if tid = "" ∨ σ.cancelling = true then
      { atRequest := none, final := σ, requestIssued := false }
    else
      let σ1 : SessionState := { σ with cancelling := true }
      match outcome with
      | .ok => { atRequest := some σ1, final := σ1, requestIssued := true }
      | .httpErr =>
        { atRequest := some σ1, final := { σ1 with cancelling := false }, requestIssued := true }
      | .netErr =>
        { atRequest := some σ1, final := { σ1 with cancelling := false }, requestIssued := true }

/-- Body of the complete-tool request sent when resolving an execution
request. -/
structure CompleteToolBody where
  task_id : String
  tool_call_id : String
  result : String
deriving DecidableEq, Repr

/-- `handleRejectExecution` of `App.tsx`. The complete-tool request is sent
inside try/catch, so `netOk` (whether the transport succeeds) influences
nothing: the local mutations run in either case. Returns the new state and
the request body that was sent (`none` when the guard bailed out). -/
def handleRejectExecution (σ : SessionState) (now : Nat) (netOk : Bool) :
    SessionState × Option CompleteToolBody :=
  match pendingExecRequest σ.reg, σ.currentTaskId with
  | some pending, some tid =>
    -- `if (!pendingExecRequest || !currentTaskId) return;` — "" is falsy
    if tid = "" then (σ, none) else
    let _ := netOk
    let rejectMsg := pending.responseOnReject.getD "Execution rejected."
    let body : CompleteToolBody :=
      { task_id := tid, tool_call_id := pending.id, result := rejectMsg }
    let reg1 := updateAction σ.reg tid pending.id (fun prev =>
      match prev with
      | some p => { p with status := .failed }
      | none => { id := "", kind := .undef, status := .failed })
    let notice : Action :=
      { id := synthId .reject now
        kind := .system_notice
        status := .done
        message := some rejectMsg
        timestamp := some (toString now) }
    let reg2 := updateAction reg1 tid notice.id (fun _ => notice)
    ({ σ with reg := reg2, executingCode := false, executionAction := none }, some body)
  | _, _ => (σ, none)

/-- `handleAcceptExecution` of `App.tsx`. `output` is the text captured by
the external code-execution collaborator (`runCurrentCode`), and `netOk` is
again irrelevant to the local mutations because the request is sent inside
try/catch. The `exec_result` action is inserted first, then the pending
`exec_request` is marked done. -/
def handleAcceptExecution (σ : SessionState) (now : Nat) (output : String) (netOk : Bool) :
    SessionState × Option CompleteToolBody :=
  match pendingExecRequest σ.reg, σ.currentTaskId with
  | some pending, some tid =>
    -- `if (!pendingExecRequest || !currentTaskId) return;` — "" is falsy
    if tid = "" then (σ, none) else
    let _ := netOk
    let body : CompleteToolBody :=
      { task_id := tid
        tool_call_id := pending.id
        result := if output = "" then "Code executed successfully (no output)." else output }
    let resultAction : Action :=
      { id := synthId .execResult now
        kind := .exec_result
        status := .done
        output := some output
        timestamp := some (toString now) }
    let reg1 := updateAction σ.reg tid resultAction.id (fun _ => resultAction)
    let reg2 := updateAction reg1 tid pending.id (fun prev =>
      match prev with
      | some p => { p with status := .done }
      | none => { id := "", kind := .undef, status := .done })
    ({ σ with reg := reg2, executingCode := false, executionAction := none }, some body)
  | _, _ => (σ, none)

/-! Concrete states used by witnesses and counterexamples. -/

/-- A registry with exec_request actions in states [done, running, running]
across two runs (spec §8 property 5). -/
def twoRunReg : Registry :=
  { runs :=
      [ { taskId := "t1"
          prompt := "p1"
          actions :=
            [ { id := "e1", kind := .exec_request, status := .done },
              { id := "e2", kind := .exec_request, status := .running } ] },
        { taskId := "t2"
          prompt := "p2"
          actions := [ { id := "e3", kind := .exec_request, status := .running } ] } ]
    runOrder := ["t1", "t2"] }

/-- A registry holding a single run. -/
def mkReg1 (tid prompt : String) (acts : List Action) : Registry :=
  { runs := [{ taskId := tid, prompt := prompt, actions := acts }]
    runOrder := [tid] }

/-- Concrete session for the C6 witness: active run t2, loading, cancelling. -/
def c6State : SessionState :=
  { reg := mkReg1 "t2" "q" []
    loading := true
    currentTaskId := some "t2"
    cancelling := true }

/-- Concrete run_failed event for task t2. -/
def c6Event : AgentEvent :=
  { event_type := "run_failed", task_id := "t2", timestamp := "ts" }

/-- Concrete session for the C5 witness. -/
def c5State : SessionState :=
  { reg := mkReg1 "t1" "q" []
    loading := true
    currentTaskId := some "t1" }

/-- Concrete agent_output event for task t1. -/
def c5Event : AgentEvent :=
  { event_type := "agent_output", task_id := "t1", timestamp := "ts"
    dataStr := "the answer" }

/-- Concrete session for C1: run t1 already holds an action with id c1 (a
started record of the think tool). -/
def c1State : SessionState :=
  { reg := mkReg1 "t1" "q"
      [ { id := "c1"
          kind := .tool_started
          status := .running
          toolName := some "think"
          timestamp := some "t0" } ] }

/-- Concrete completed event for the think tool, call id c1, string output. -/
def c1Event : AgentEvent :=
  { event_type := "progress_update_tool_action_completed"
    task_id := "t1"
    timestamp := "ts"
    dataResult := some
      { tool_call := some { id := "c1", function := { name := "think" } }
        output_data := some (.str "note") } }

/-- Concrete session for the C1 witness: run t1 holds a started record of a
non-think tool with call id c2. -/
def c1WitnessState : SessionState :=
  { reg := mkReg1 "t1" "q"
      [ { id := "c2"
          kind := .tool_started
          status := .running
          toolName := some "search"
          timestamp := some "t0" } ] }

/-- Concrete completed event for the search tool, call id c2. -/
def c1WitnessEvent : AgentEvent :=
  { event_type := "progress_update_tool_action_completed"
    task_id := "t1"
    timestamp := "ts"
    dataResult := some
      { tool_call := some { id := "c2", function := { name := "search" } }
        output_data := some (.obj none "hits") } }

/-- Concrete session with a non-blank input buffer, for the sendPrompt
witnesses. -/
def promptState : SessionState :=
  { input := "sort this array", code := "let x = 1" }

/-- Concrete idle session (no active task), for the cancel witness. -/
def idleState : SessionState := {}

/-- Concrete session with an active task and no cancellation in flight. -/
def activeState : SessionState :=
  { currentTaskId := some "t9", loading := true }

/-- A pending execution request with a stored reject response. -/
def execReqAction : Action :=
  { id := "e1"
    kind := .exec_request
    status := .running
    responseOnReject := some "nope" }

/-- Session in which the pending exec_request lives in run A while the
active task is run B (cross-run mismatch). -/
def crossRunState : SessionState :=
  { reg :=
      { runs :=
          [ { taskId := "A", prompt := "pa", actions := [execReqAction] },
            { taskId := "B", prompt := "pb", actions := [] } ]
        runOrder := ["A", "B"] }
    currentTaskId := some "B" }

/-- Session whose single run t1 holds only the pending exec_request, with
the active task pointing at that same run. -/
def c7State : SessionState :=
  { reg := mkReg1 "t1" "q" [execReqAction]
    currentTaskId := some "t1" }

/-- A session reached by submitting a prompt (run t1 created at clock 1) and
then processing two agent_output events for t1 in the same millisecond
(clock 100). -/
def sameMsState : SessionState :=
  handleWSMessage
    (handleWSMessage (sendPrompt promptState 1 (.ok "t1")).final
      { event_type := "agent_output", task_id := "t1", timestamp := "ta"
        dataStr := "a1" } 100)
    { event_type := "agent_output", task_id := "t1", timestamp := "tb"
      dataStr := "a2" } 100

/-! Theorems. First some general lemmas about the registry operations. -/

theorem modifyRun_runOrder (reg : Registry) (tid : String) (g : Run → Run) :
    (modifyRun reg tid g).runOrder = reg.runOrder := rfl

theorem find?_map_ite {tid : String} (g : Run → Run)
    (hg : ∀ r, (g r).taskId = r.taskId) :
    ∀ l : List Run,
      (l.map (fun r => if r.taskId == tid then g r else r)).find?
          (fun r => r.taskId == tid) =
        (l.find? (fun r => r.taskId == tid)).map g := by
  intro l
  induction l with
  | nil => rfl
  | cons r rest ih =>
    simp only [List.map_cons]
    by_cases h : r.taskId = tid
    · have hb : (r.taskId == tid) = true := beq_iff_eq.mpr h
      have hb' : ((g r).taskId == tid) = true := by rw [hg r]; exact hb
      rw [if_pos hb]
      simp only [List.find?, hb, hb']
      rfl
    · have hbf : (r.taskId == tid) = false := beq_eq_false_iff_ne.mpr h
      have hbn : ¬ ((r.taskId == tid) = true) := by
        rw [hbf]; exact Bool.false_ne_true
      rw [if_neg hbn]
      simp only [List.find?, hbf]
      exact ih

theorem findRun_modifyRun (reg : Registry) (tid : String) (g : Run → Run)
    (hg : ∀ r, (g r).taskId = r.taskId) :
    findRun (modifyRun reg tid g) tid = (findRun reg tid).map g := by
  unfold findRun modifyRun
  exact find?_map_ite g hg reg.runs

theorem findRun_addAction (reg : Registry) (tid : String) (a : Action) :
    findRun (addAction reg tid a) tid =
      (findRun reg tid).map (fun r => { r with actions := r.actions ++ [a] }) := by
  unfold addAction
  exact findRun_modifyRun reg tid _ (fun r => rfl)

theorem findRun_updateAction (reg : Registry) (tid aid : String)
    (f : Option Action → Action) :
    findRun (updateAction reg tid aid f) tid =
      (findRun reg tid).map (fun r => { r with actions := upsertList r.actions aid f }) := by
  unfold updateAction
  exact findRun_modifyRun reg tid _ (fun r => rfl)

theorem upsertList_of_not_mem (aid : String) (f : Option Action → Action) :
    ∀ l : List Action, (∀ a ∈ l, a.id ≠ aid) → upsertList l aid f = l ++ [f none] := by
  intro l
  induction l with
  | nil => intro _; rfl
  | cons a rest ih =>
    intro h
    have ha : ¬ ((a.id == aid) = true) := by
      simp only [beq_iff_eq]
      exact h a (List.mem_cons_self a rest)
    show (if a.id == aid then f (some a) :: rest else a :: upsertList rest aid f) =
      (a :: rest) ++ [f none]
    rw [if_neg ha, ih (fun b hb => h b (List.mem_cons_of_mem a hb))]
    rfl

theorem upsertList_split (aid : String) (f : Option Action → Action)
    (a : Action) (l2 : List Action) (ha : a.id = aid) :
    ∀ l1 : List Action, (∀ b ∈ l1, b.id ≠ aid) →
      upsertList (l1 ++ a :: l2) aid f = l1 ++ f (some a) :: l2 := by
  intro l1
  induction l1 with
  | nil =>
    intro _
    show (if a.id == aid then f (some a) :: l2 else a :: upsertList l2 aid f) =
      [] ++ f (some a) :: l2
    rw [if_pos (beq_iff_eq.mpr ha)]
    rfl
  | cons b rest ih =>
    intro h
    have hb : ¬ ((b.id == aid) = true) := by
      simp only [beq_iff_eq]
      exact h b (List.mem_cons_self b rest)
    show (if b.id == aid then f (some b) :: (rest ++ a :: l2)
          else b :: upsertList (rest ++ a :: l2) aid f) =
        (b :: rest) ++ f (some a) :: l2
    rw [if_neg hb, ih (fun c hc => h c (List.mem_cons_of_mem b hc))]
    rfl

/-- C3: the derived pending execution request equals the last action, in the
flattened run/action order, whose kind is `exec_request` and whose status is
`running` (`none` when no such action exists); and on the concrete
[done, running, running] two-run registry it is the latest running request,
not the first. -/
theorem c3_pendingExecRequest_is_last_running :
    (∀ reg : Registry, pendingExecRequest reg = pendingExecRequestSpec reg)
    ∧ pendingExecRequest twoRunReg =
        some { id := "e3", kind := .exec_request, status := .running } := by
  constructor
  · intro reg
    unfold pendingExecRequest pendingExecRequestSpec
    by_cases h : (timelineActions reg).length = 0
    · rw [if_pos h, List.length_eq_zero.mp h]
      rfl
    · rw [if_neg h, List.getLast?_eq_head?_reverse, ← List.filter_reverse,
        List.filter_head?]
  · rfl

/-- C4: a tool_action_completed event whose tool-call descriptor names the
execution-request tool leaves the run registry unchanged: no timeline action
is added and none is modified. -/
theorem c4_exec_request_completion_suppressed (σ : SessionState) (ev : AgentEvent)
    (now : Nat) (resp : ToolResult) (tc : ToolCall)
    (hty : ev.event_type = "progress_update_tool_action_completed")
    (hres : ev.dataResult = some resp)
    (htc : resp.tool_call = some tc)
    (hname : tc.function.name = "request_code_execution") :
    (handleWSMessage σ ev now).reg = σ.reg := by
  have h1 : ¬ ev.event_type = "progress_update_tool_action_started" := by
    rw [hty]; decide
  simp only [handleWSMessage]
  rw [if_neg h1, if_pos hty]
  simp only [hres, htc]
  rw [if_pos hname]
  split <;> first | rfl | (split <;> rfl)

/-- Witness for C4 at a concrete event and state. -/
theorem c4_witness :
    (handleWSMessage { input := "x" }
      { event_type := "progress_update_tool_action_completed"
        task_id := "t1"
        timestamp := "ts"
        dataResult := some
          { tool_call := some { id := "c1", function := { name := "request_code_execution" } }
            output_data := some (.str "ignored") } } 3).reg =
      (SessionState.mk {} false none false none "x" "" false none).reg :=
  c4_exec_request_completion_suppressed _ _ 3 _ _ rfl rfl rfl rfl

/-- C6: a run_failed event appends to the event's run a system_notice action
with message exactly "Failed to get agent response." and status done, and
clears the loading flag, the cancelling flag, and the active-task pointer. -/
theorem c6_run_failed (σ : SessionState) (ev : AgentEvent) (now : Nat) (r : Run)
    (hty : ev.event_type = "run_failed")
    (hrun : findRun σ.reg ev.task_id = some r) :
    findRun (handleWSMessage σ ev now).reg ev.task_id =
      some { r with actions := r.actions ++
        [ { id := synthId .fail now
            kind := .system_notice
            status := .done
            message := some "Failed to get agent response."
            timestamp := some ev.timestamp } ] }
    ∧ (handleWSMessage σ ev now).loading = false
    ∧ (handleWSMessage σ ev now).cancelling = false
    ∧ (handleWSMessage σ ev now).currentTaskId = none := by
  have h1 : ¬ ev.event_type = "progress_update_tool_action_started" := by rw [hty]; decide
  have h2 : ¬ ev.event_type = "progress_update_tool_action_completed" := by rw [hty]; decide
  have h3 : ¬ ev.event_type = "progress_update_tool_action_failed" := by rw [hty]; decide
  have h4 : ¬ ev.event_type = "agent_output" := by rw [hty]; decide
  have h5 : ¬ ev.event_type = "run_cancelled" := by rw [hty]; decide
  simp only [handleWSMessage]
  rw [if_neg h1, if_neg h2, if_neg h3, if_neg h4, if_neg h5, if_pos hty]
  refine ⟨?_, rfl, rfl, rfl⟩
  rw [findRun_addAction, hrun]
  rfl

/-- Witness for C6: a concrete run_failed event for task t2 on a session
holding an active run t2. -/
theorem c6_witness :
    findRun (handleWSMessage c6State c6Event 4).reg "t2" =
      some { taskId := "t2"
             prompt := "q"
             actions :=
               [ { id := "fail_4"
                   kind := .system_notice
                   status := .done
                   message := some "Failed to get agent response."
                   timestamp := some "ts" } ] }
    ∧ (handleWSMessage c6State c6Event 4).loading = false
    ∧ (handleWSMessage c6State c6Event 4).cancelling = false
    ∧ (handleWSMessage c6State c6Event 4).currentTaskId = none :=
  c6_run_failed c6State c6Event 4 { taskId := "t2", prompt := "q", actions := [] } rfl rfl

/-- C5 counterexample: on a session whose registry holds no run at all, an
agent_output event inserts no final_answer action anywhere — the insert is
silently dropped because the event's task is unknown — contradicting the
claim that every agent_output event on every prior state inserts exactly one
final_answer action. The flags are still cleared. -/
theorem c5_counterexample :
    timelineActions
        (handleWSMessage { loading := true, currentTaskId := some "t1" }
          { event_type := "agent_output", task_id := "t1", timestamp := "ts"
            dataStr := "hello" } 7).reg = []
    ∧ (handleWSMessage { loading := true, currentTaskId := some "t1" }
        { event_type := "agent_output", task_id := "t1", timestamp := "ts"
          dataStr := "hello" } 7).reg.runs = [] := by
  exact ⟨rfl, rfl⟩

/-- C5 (amended): an agent_output event always clears the loading flag and
the active-task pointer, regardless of prior state; and provided a run with
the event's task id exists, exactly one final_answer action with the
synthesized time-based identifier, status done, and content equal to the
event payload is appended to that run. -/
theorem c5_amended_agent_output (σ : SessionState) (ev : AgentEvent) (now : Nat)
    (hty : ev.event_type = "agent_output") :
    ((handleWSMessage σ ev now).loading = false
      ∧ (handleWSMessage σ ev now).currentTaskId = none)
    ∧ (∀ r : Run, findRun σ.reg ev.task_id = some r →
        findRun (handleWSMessage σ ev now).reg ev.task_id =
          some { r with actions := r.actions ++
            [ { id := synthId .answer now
                kind := .final_answer
                status := .done
                content := some ev.dataStr
                timestamp := some ev.timestamp } ] }) := by
  have h1 : ¬ ev.event_type = "progress_update_tool_action_started" := by rw [hty]; decide
  have h2 : ¬ ev.event_type = "progress_update_tool_action_completed" := by rw [hty]; decide
  have h3 : ¬ ev.event_type = "progress_update_tool_action_failed" := by rw [hty]; decide
  simp only [handleWSMessage]
  rw [if_neg h1, if_neg h2, if_neg h3, if_pos hty]
  refine ⟨⟨rfl, rfl⟩, ?_⟩
  intro r hrun
  rw [findRun_addAction, hrun]
  rfl

/-- Witness for C5 (amended) at a concrete event and state. -/
theorem c5_amended_witness :
    ((handleWSMessage c5State c5Event 2).loading = false
      ∧ (handleWSMessage c5State c5Event 2).currentTaskId = none)
    ∧ findRun (handleWSMessage c5State c5Event 2).reg "t1" =
        some { taskId := "t1"
               prompt := "q"
               actions :=
                 [ { id := "answer_2"
                     kind := .final_answer
                     status := .done
                     content := some "the answer"
                     timestamp := some "ts" } ] } :=
  ⟨(c5_amended_agent_output c5State c5Event 2 rfl).1,
    (c5_amended_agent_output c5State c5Event 2 rfl).2
      { taskId := "t1", prompt := "q", actions := [] } rfl⟩

/-- C2: behavior of sendPrompt on enqueue failure. On a non-ok HTTP response
the loading flag is cleared, no run is created, no user_message is added
(registry unchanged) and the active-task pointer is unchanged — as the claim
says. But on a transport error (rejected fetch) the async function has no
try/catch: the rejection propagates before the failure branch runs, so while
no run is created and the pointer is unchanged, the loading flag REMAINS set,
contradicting the claim for that failure mode. -/
theorem c2_enqueue_failure_behavior (σ : SessionState) (now : Nat)
    (h : ¬ jsTrim σ.input = "") :
    ((sendPrompt σ now .httpErr).final.loading = false
      ∧ (sendPrompt σ now .httpErr).final.reg = σ.reg
      ∧ (sendPrompt σ now .httpErr).final.currentTaskId = σ.currentTaskId)
    ∧ ((sendPrompt σ now .netErr).final.reg = σ.reg
      ∧ (sendPrompt σ now .netErr).final.currentTaskId = σ.currentTaskId
      ∧ (sendPrompt σ now .netErr).final.loading = true) := by
  simp [sendPrompt, if_neg h]

/-- Witness for C2 at the concrete failing input: a rejected enqueue fetch on
a non-blank prompt leaves loading set (the bug) while creating no run; a
non-ok HTTP response clears it. -/
theorem c2_witness :
    (sendPrompt promptState 1 .netErr).final.loading = true
    ∧ (sendPrompt promptState 1 .netErr).final.reg = promptState.reg
    ∧ (sendPrompt promptState 1 .httpErr).final.loading = false :=
  ⟨(c2_enqueue_failure_behavior promptState 1 (by decide)).2.2.2,
    (c2_enqueue_failure_behavior promptState 1 (by decide)).2.1,
    (c2_enqueue_failure_behavior promptState 1 (by decide)).1.1⟩

/-- C10: for every call to sendPrompt with non-blank input, the input buffer
is already empty in the state at which the enqueue request is issued, a
request is issued, and after either kind of enqueue failure the input buffer
still holds the empty string (the submitted text is not restored). -/
theorem c10_input_cleared_before_send (σ : SessionState) (now : Nat)
    (h : ¬ jsTrim σ.input = "") :
    (∀ o : EnqueueOutcome,
      (sendPrompt σ now o).atRequest = some { σ with loading := true, input := "" }
      ∧ (sendPrompt σ now o).request.isSome = true)
    ∧ (sendPrompt σ now .httpErr).final.input = ""
    ∧ (sendPrompt σ now .netErr).final.input = "" := by
  refine ⟨?_, ?_, ?_⟩
  · intro o
    cases o <;> simp [sendPrompt, if_neg h]
  · simp [sendPrompt, if_neg h]
  · simp [sendPrompt, if_neg h]

/-- Witness for C10 at a concrete non-blank prompt. -/
theorem c10_witness :
    (sendPrompt promptState 1 .httpErr).atRequest =
      some { promptState with loading := true, input := "" }
    ∧ (sendPrompt promptState 1 .netErr).final.input = "" :=
  ⟨((c10_input_cleared_before_send promptState 1 (by decide)).1 .httpErr).1,
    (c10_input_cleared_before_send promptState 1 (by decide)).2.2⟩

/-- C8: cancelCurrentTask is a no-op (identical state, no request issued)
when there is no active task or a cancellation is already in flight;
otherwise it issues the request from a state in which the cancelling flag is
already set, and afterwards the flag is cleared again exactly on failure
(non-ok response or transport error) and stays set on success. -/
theorem c8_cancel_no_op_and_failure (σ : SessionState) :
    ((σ.currentTaskId = none ∨ σ.currentTaskId = some "" ∨ σ.cancelling = true) →
      ∀ o : CancelOutcome,
        cancelCurrentTask σ o = { atRequest := none, final := σ, requestIssued := false })
    ∧ (∀ t, σ.currentTaskId = some t → t ≠ "" → σ.cancelling = false →
        (∀ o : CancelOutcome,
          (cancelCurrentTask σ o).requestIssued = true
          ∧ (cancelCurrentTask σ o).atRequest = some { σ with cancelling := true })
        ∧ (cancelCurrentTask σ .ok).final.cancelling = true
        ∧ (cancelCurrentTask σ .httpErr).final.cancelling = false
        ∧ (cancelCurrentTask σ .netErr).final.cancelling = false) := by
  constructor
  · intro h o
    rcases hc : σ.currentTaskId with _ | t
    · simp only [cancelCurrentTask, hc]
    · have hguard : t = "" ∨ σ.cancelling = true := by
        rcases h with h | h | h
        · rw [hc] at h
          cases h
        · rw [hc] at h
          exact Or.inl (Option.some.inj h)
        · exact Or.inr h
      simp only [cancelCurrentTask, hc]
      rw [if_pos hguard]
  · intro t hc hne hcl
    have hguard : ¬ (t = "" ∨ σ.cancelling = true) := by
      rintro (h | h)
      · exact hne h
      · rw [hcl] at h
        cases h
    refine ⟨?_, ?_, ?_, ?_⟩
    · intro o
      cases o <;>
        (simp only [cancelCurrentTask, hc]; rw [if_neg hguard]; exact ⟨rfl, rfl⟩)
    · simp only [cancelCurrentTask, hc]
      rw [if_neg hguard]
    · simp only [cancelCurrentTask, hc]
      rw [if_neg hguard]
    · simp only [cancelCurrentTask, hc]
      rw [if_neg hguard]

/-- Witness for C8: concrete no-op (idle session) and concrete
success/failure outcomes on a session with an active task. -/
theorem c8_witness :
    cancelCurrentTask idleState .ok =
      { atRequest := none, final := idleState, requestIssued := false }
    ∧ (cancelCurrentTask activeState .httpErr).final.cancelling = false
    ∧ (cancelCurrentTask activeState .ok).final.cancelling = true
    ∧ (cancelCurrentTask activeState .netErr).requestIssued = true :=
  ⟨(c8_cancel_no_op_and_failure idleState).1 (Or.inl rfl) .ok,
    ((c8_cancel_no_op_and_failure activeState).2 "t9" rfl (by decide) rfl).2.2.1,
    ((c8_cancel_no_op_and_failure activeState).2 "t9" rfl (by decide) rfl).2.1,
    (((c8_cancel_no_op_and_failure activeState).2 "t9" rfl (by decide) rfl).1 .netErr).1⟩

/-- C7 counterexample: in a state where the derived pending exec_request
lives in run A but the active task is run B, rejecting does NOT mark the
pending exec_request failed: the handlers key their updates on the active
task's run, so the request in run A remains running (and stays the derived
pending request), contradicting the claim as quantified over every state
with a pending exec_request and a non-null active task. -/
theorem c7_counterexample :
    pendingExecRequest crossRunState.reg = some execReqAction
    ∧ crossRunState.currentTaskId = some "B"
    ∧ findRun (handleRejectExecution crossRunState 9 true).1.reg "A" =
        some { taskId := "A", prompt := "pa", actions := [execReqAction] }
    ∧ pendingExecRequest (handleRejectExecution crossRunState 9 true).1.reg =
        some execReqAction :=
  ⟨rfl, rfl, rfl, rfl⟩

/-- C7 (amended): when the pending exec_request belongs to the run of the
active task, resolving it advances local state regardless of the network
outcome: the local result is literally independent of whether the
complete-tool send succeeds; on reject the exec_request is marked failed and
a system_notice carrying the stored responseOnReject (or the default
"Execution rejected.") is appended; on accept an exec_result carrying the
captured output is appended and the exec_request is marked done. -/
theorem c7_amended_resolution (σ : SessionState) (now : Nat) (output tid : String)
    (pend : Action) (r : Run) (l1 l2 : List Action)
    (hpend : pendingExecRequest σ.reg = some pend)
    (htid : σ.currentTaskId = some tid)
    (htidne : tid ≠ "")
    (hrun : findRun σ.reg tid = some r)
    (hsplit : r.actions = l1 ++ pend :: l2)
    (hl1 : ∀ b ∈ l1, b.id ≠ pend.id)
    (hfreshR : ∀ a ∈ r.actions, a.id ≠ synthId .reject now)
    (hfreshE : ∀ a ∈ r.actions, a.id ≠ synthId .execResult now) :
    (∀ netOk netOk2 : Bool,
      handleRejectExecution σ now netOk = handleRejectExecution σ now netOk2
      ∧ handleAcceptExecution σ now output netOk = handleAcceptExecution σ now output netOk2)
    ∧ (∀ netOk : Bool,
        findRun (handleRejectExecution σ now netOk).1.reg tid =
          some { r with actions :=
            (l1 ++ { pend with status := .failed } :: l2) ++
              [ { id := synthId .reject now
                  kind := .system_notice
                  status := .done
                  message := some (pend.responseOnReject.getD "Execution rejected.")
                  timestamp := some (toString now) } ] })
    ∧ (∀ netOk : Bool,
        findRun (handleAcceptExecution σ now output netOk).1.reg tid =
          some { r with actions :=
            (l1 ++ { pend with status := .done } :: l2) ++
              [ { id := synthId .execResult now
                  kind := .exec_result
                  status := .done
                  output := some output
                  timestamp := some (toString now) } ] }) := by
  have hpendid : pend.id ≠ synthId .reject now := by
    refine hfreshR pend ?_
    rw [hsplit]
    exact List.mem_append_right _ (List.mem_cons_self _ _)
  refine ⟨fun _ _ => ⟨rfl, rfl⟩, ?_, ?_⟩
  · intro netOk
    simp only [handleRejectExecution, hpend, htid]
    rw [if_neg htidne]
    rw [findRun_updateAction, findRun_updateAction, hrun]
    simp only [Option.map_some']
    rw [hsplit, upsertList_split pend.id _ pend l2 rfl l1 hl1]
    have hmem : ∀ a ∈ l1 ++ ({ pend with status := Status.failed } :: l2),
        a.id ≠ synthId .reject now := by
      intro a ha
      rcases List.mem_append.mp ha with h | h
      · exact hfreshR a (by rw [hsplit]; exact List.mem_append_left _ h)
      · rcases List.mem_cons.mp h with h | h
        · subst h
          exact hpendid
        · exact hfreshR a
            (by rw [hsplit]; exact List.mem_append_right _ (List.mem_cons_of_mem _ h))
    rw [upsertList_of_not_mem _ _ _ hmem]
  · intro netOk
    simp only [handleAcceptExecution, hpend, htid]
    rw [if_neg htidne]
    rw [findRun_updateAction, findRun_updateAction, hrun]
    simp only [Option.map_some']
    rw [upsertList_of_not_mem _ _ r.actions hfreshE, hsplit, List.append_assoc,
      List.cons_append]
    rw [upsertList_split pend.id _ pend _ rfl l1 hl1]
    simp [List.append_assoc]

/-- Witness for C7 (amended): concrete reject and accept on a session whose
active run holds the pending request. -/
theorem c7_witness :
    (handleRejectExecution c7State 9 true = handleRejectExecution c7State 9 false
      ∧ handleAcceptExecution c7State 9 "out" true = handleAcceptExecution c7State 9 "out" false)
    ∧ findRun (handleRejectExecution c7State 9 false).1.reg "t1" =
        some { taskId := "t1"
               prompt := "q"
               actions :=
                 [ { execReqAction with status := .failed },
                   { id := "reject_9"
                     kind := .system_notice
                     status := .done
                     message := some "nope"
                     timestamp := some "9" } ] }
    ∧ findRun (handleAcceptExecution c7State 9 "out" false).1.reg "t1" =
        some { taskId := "t1"
               prompt := "q"
               actions :=
                 [ { execReqAction with status := .done },
                   { id := "exec_result_9"
                     kind := .exec_result
                     status := .done
                     output := some "out"
                     timestamp := some "9" } ] } := by
  have h := c7_amended_resolution c7State 9 "out" "t1" execReqAction
    { taskId := "t1", prompt := "q", actions := [execReqAction] } [] []
    rfl rfl (by decide) rfl rfl
    (by intro b hb; cases hb)
    (by
      intro a ha
      rw [List.mem_singleton] at ha
      subst ha
      decide)
    (by
      intro a ha
      rw [List.mem_singleton] at ha
      subst ha
      decide)
  exact ⟨h.1 true false, h.2.1 false, h.2.2 false⟩

theorem upsertList_id_mem (aid : String) (f : Option Action → Action)
    (hf : ∀ a : Action, (f (some a)).id = a.id) (hfn : (f none).id = aid) :
    ∀ l : List Action, ∀ x ∈ (upsertList l aid f).map Action.id,
      x ∈ l.map Action.id ∨ x = aid := by
  intro l
  induction l with
  | nil =>
    intro x hx
    right
    rw [List.mem_singleton.mp hx, hfn]
  | cons a rest ih =>
    intro x hx
    have hdef : upsertList (a :: rest) aid f =
        if a.id == aid then f (some a) :: rest else a :: upsertList rest aid f := rfl
    rw [hdef] at hx
    by_cases h : (a.id == aid) = true
    · rw [if_pos h] at hx
      simp only [List.map_cons] at hx
      rcases List.mem_cons.mp hx with h1 | h1
      · left
        rw [h1, hf a]
        simp only [List.map_cons]
        exact List.mem_cons_self _ _
      · left
        simp only [List.map_cons]
        exact List.mem_cons_of_mem _ h1
    · rw [if_neg h] at hx
      simp only [List.map_cons] at hx
      rcases List.mem_cons.mp hx with h1 | h1
      · left
        simp only [List.map_cons]
        rw [h1]
        exact List.mem_cons_self _ _
      · rcases ih x h1 with h2 | h2
        · left
          simp only [List.map_cons]
          exact List.mem_cons_of_mem _ h2
        · right
          exact h2

theorem string_head_ne {s1 s2 : String} {c d : Char} (h1 : s1.data.head? = some c)
    (h2 : s2.data.head? = some d) (hcd : c ≠ d) : s1 ≠ s2 := by
  intro h
  rw [h] at h1
  rw [h1] at h2
  exact hcd (Option.some.inj h2)

/-- C9 counterexample: a reachable state with duplicate action identifiers in
one run. Submitting a prompt (clock 1) and then receiving two agent_output
events for the same task within the same millisecond (clock 100) yields run
t1 with identifiers [user_1, answer_100, answer_100] — not pairwise
distinct, refuting the invariant as claimed ("even when generated within the
same millisecond"). -/
theorem c9_counterexample :
    (findRun sameMsState.reg "t1").map (fun r => r.actions.map Action.id) =
      some ["user_1", "answer_100", "answer_100"]
    ∧ ¬ (["user_1", "answer_100", "answer_100"] : List String).Nodup :=
  ⟨rfl, by decide⟩

/-- C9 (amended): per-run identifier uniqueness is preserved by every
id-keyed update (upsert replaces in place, or inserts exactly the key), and
by an append exactly when the appended identifier is fresh in the run —
appending a stale identifier always breaks it. Identifiers synthesized for
different action kinds never collide (their prefixes differ), but two
same-kind synthesized actions from the same millisecond share one identifier,
so the invariant fails exactly in that case (and when the transport replays a
tool-call id), as the counterexample shows. -/
theorem c9_amended_id_uniqueness :
    (∀ (l : List Action) (aid : String) (f : Option Action → Action),
      (l.map Action.id).Nodup →
      (∀ a : Action, (f (some a)).id = a.id) →
      (f none).id = aid →
      ((upsertList l aid f).map Action.id).Nodup)
    ∧ (∀ (l : List Action) (a : Action),
        (l.map Action.id).Nodup → a.id ∉ l.map Action.id →
        ((l ++ [a]).map Action.id).Nodup)
    ∧ (∀ (l : List Action) (a : Action),
        a.id ∈ l.map Action.id → ¬ ((l ++ [a]).map Action.id).Nodup)
    ∧ (∀ (k k' : SynthKind) (t t' : Nat), k ≠ k' → synthId k t ≠ synthId k' t') := by
  refine ⟨?_, ?_, ?_, ?_⟩
  · intro l aid f
    induction l with
    | nil =>
      intro _ _ _
      exact List.nodup_singleton _
    | cons a rest ih =>
      intro hnd hf hfn
      have hdef : upsertList (a :: rest) aid f =
          if a.id == aid then f (some a) :: rest else a :: upsertList rest aid f := rfl
      rw [hdef]
      have hnd' : a.id ∉ rest.map Action.id ∧ (rest.map Action.id).Nodup := by
        simpa using hnd
      by_cases h : (a.id == aid) = true
      · rw [if_pos h]
        simp only [List.map_cons, List.nodup_cons, hf a]
        exact hnd'
      · rw [if_neg h]
        simp only [List.map_cons, List.nodup_cons]
        refine ⟨?_, ih hnd'.2 hf hfn⟩
        intro hmem
        rcases upsertList_id_mem aid f hf hfn rest a.id hmem with h2 | h2
        · exact hnd'.1 h2
        · exact h (beq_iff_eq.mpr h2)
  · intro l a hnd hfresh
    rw [List.map_append]
    refine List.Nodup.append hnd (List.nodup_singleton _) ?_
    intro x hx hx2
    rw [List.map_singleton, List.mem_singleton] at hx2
    rw [hx2] at hx
    exact hfresh hx
  · intro l a hmem hnd
    rw [List.map_append] at hnd
    exact List.disjoint_of_nodup_append hnd hmem
      (by rw [List.map_singleton]; exact List.mem_singleton.mpr rfl)
  · intro k k' t t' hkk
    cases k <;> cases k' <;>
      first
        | exact absurd rfl hkk
        | exact string_head_ne rfl rfl (by decide)

/-- Witness for C9 (amended): concrete instantiations of the preservation
and violation conjuncts. -/
theorem c9_amended_witness :
    ((upsertList [execReqAction] "e1"
        (fun prev =>
          match prev with
          | some p => { p with status := Status.done }
          | none => { id := "e1", kind := Kind.undef, status := Status.done })).map
      Action.id).Nodup
    ∧ (([execReqAction] ++ [{ execReqAction with id := "e2" }]).map Action.id).Nodup
    ∧ ¬ (([execReqAction] ++ [execReqAction]).map Action.id).Nodup
    ∧ synthId SynthKind.answer 100 ≠ synthId SynthKind.fail 100 :=
  ⟨c9_amended_id_uniqueness.1 [execReqAction] "e1" _ (by decide)
      (fun a => rfl) rfl,
    c9_amended_id_uniqueness.2.1 [execReqAction] _ (by decide) (by decide),
    c9_amended_id_uniqueness.2.2.1 [execReqAction] execReqAction (by decide),
    c9_amended_id_uniqueness.2.2.2 SynthKind.answer SynthKind.fail 100 100 (by decide)⟩

/-- C1 counterexample: a completed event for the think tool (a
non-execution-request tool) whose call id c1 already exists in the run does
NOT leave the action-sequence length unchanged: the upsert replaces the c1
record in place, but the reducer additionally appends a synthesized
assistant_thought, growing the sequence from 1 to 2 actions. -/
theorem c1_counterexample :
    ((findRun c1State.reg "t1").map (fun r => r.actions.map Action.id) = some ["c1"])
    ∧ ((findRun (handleWSMessage c1State c1Event 5).reg "t1").map
        (fun r => r.actions.length) = some 2) :=
  ⟨rfl, rfl⟩

/-- C1 (amended): for a completed event of a non-execution-request tool whose
descriptor is present, on the run of the event's task: if no action carries
the tool-call id, exactly one tool_completed action with that id, status
done, the tool name and the event's output is appended (followed by the
synthesized assistant_thought if the tool is think with string output); if an
action with that id exists, it is replaced in place by the merged
tool_completed record with status done and the output attached, the sequence
growing only by the think-tool extra. -/
theorem c1_amended_completed_upsert (σ : SessionState) (ev : AgentEvent) (now : Nat)
    (resp : ToolResult) (tc : ToolCall) (r : Run)
    (hty : ev.event_type = "progress_update_tool_action_completed")
    (hres : ev.dataResult = some resp)
    (htc : resp.tool_call = some tc)
    (hname : ¬ tc.function.name = "request_code_execution")
    (hrun : findRun σ.reg ev.task_id = some r) :
    ((∀ a ∈ r.actions, a.id ≠ tc.id) →
      findRun (handleWSMessage σ ev now).reg ev.task_id =
        some { r with actions :=
          (r.actions ++
            [ { id := tc.id
                kind := .tool_completed
                status := .done
                toolName := some tc.function.name
                timestamp := some ev.timestamp
                result := resp.output_data } ]) ++ thinkExtra tc resp ev now })
    ∧ (∀ l1 a l2, r.actions = l1 ++ a :: l2 → a.id = tc.id → (∀ b ∈ l1, b.id ≠ tc.id) →
      findRun (handleWSMessage σ ev now).reg ev.task_id =
        some { r with actions :=
          (l1 ++ { a with
                    kind := .tool_completed
                    status := .done
                    result := resp.output_data } :: l2) ++ thinkExtra tc resp ev now }) := by
  have h1 : ¬ ev.event_type = "progress_update_tool_action_started" := by rw [hty]; decide
  have key : (handleWSMessage σ ev now).reg =
      (match resp.output_data with
        | some (.str s) =>
          if tc.function.name = "think" then
            addAction (updateAction σ.reg ev.task_id tc.id (completedUpdater tc ev resp))
              ev.task_id (thoughtAction s ev now)
          else updateAction σ.reg ev.task_id tc.id (completedUpdater tc ev resp)
        | _ => updateAction σ.reg ev.task_id tc.id (completedUpdater tc ev resp)) := by
    simp only [handleWSMessage]
    rw [if_neg h1, if_pos hty]
    simp only [hres, htc]
    rw [if_neg hname]
  have upd_absent : (∀ a ∈ r.actions, a.id ≠ tc.id) →
      findRun (updateAction σ.reg ev.task_id tc.id (completedUpdater tc ev resp))
          ev.task_id =
        some { r with actions := r.actions ++
          [ { id := tc.id
              kind := .tool_completed
              status := .done
              toolName := some tc.function.name
              timestamp := some ev.timestamp
              result := resp.output_data } ] } := by
    intro habs
    rw [findRun_updateAction, hrun]
    simp only [Option.map_some']
    rw [upsertList_of_not_mem tc.id _ r.actions habs]
    rfl
  have upd_present : ∀ l1 a l2, r.actions = l1 ++ a :: l2 → a.id = tc.id →
      (∀ b ∈ l1, b.id ≠ tc.id) →
      findRun (updateAction σ.reg ev.task_id tc.id (completedUpdater tc ev resp))
          ev.task_id =
        some { r with actions :=
          l1 ++ { a with
                   kind := .tool_completed
                   status := .done
                   result := resp.output_data } :: l2 } := by
    intro l1 a l2 hsplit ha hl1
    rw [findRun_updateAction, hrun]
    simp only [Option.map_some']
    rw [hsplit, upsertList_split tc.id _ a l2 ha l1 hl1]
    rfl
  constructor
  · intro habs
    have habs' := upd_absent habs
    rcases hod : resp.output_data with _ | od
    · simp only [hod] at key habs'
      simp only [thinkExtra, hod, List.append_nil]
      rw [key]
      exact habs'
    · cases od with
      | str s =>
        by_cases hthink : tc.function.name = "think"
        · simp only [hod] at key habs'
          rw [if_pos hthink] at key
          simp only [thinkExtra, hod, if_pos hthink]
          rw [key, findRun_addAction, habs']
          rfl
        · simp only [hod] at key habs'
          rw [if_neg hthink] at key
          simp only [thinkExtra, hod, if_neg hthink, List.append_nil]
          rw [key]
          exact habs'
      | obj nc raw =>
        simp only [hod] at key habs'
        simp only [thinkExtra, hod, List.append_nil]
        rw [key]
        exact habs'
  · intro l1 a l2 hsplit ha hl1
    have hpres := upd_present l1 a l2 hsplit ha hl1
    rcases hod : resp.output_data with _ | od
    · simp only [hod] at key hpres
      simp only [thinkExtra, hod, List.append_nil]
      rw [key]
      exact hpres
    · cases od with
      | str s =>
        by_cases hthink : tc.function.name = "think"
        · simp only [hod] at key hpres
          rw [if_pos hthink] at key
          simp only [thinkExtra, hod, if_pos hthink]
          rw [key, findRun_addAction, hpres]
          rfl
        · simp only [hod] at key hpres
          rw [if_neg hthink] at key
          simp only [thinkExtra, hod, if_neg hthink, List.append_nil]
          rw [key]
          exact hpres
      | obj nc raw =>
        simp only [hod] at key hpres
        simp only [thinkExtra, hod, List.append_nil]
        rw [key]
        exact hpres

/-- Witness for C1 (amended): both the insert-if-absent case (on a run
without the id) and the replace-in-place case (on the concrete started
record) at concrete inputs. -/
theorem c1_amended_witness :
    findRun (handleWSMessage c1WitnessState c1WitnessEvent 6).reg "t1" =
      some { taskId := "t1"
             prompt := "q"
             actions :=
               [ { id := "c2"
                   kind := .tool_completed
                   status := .done
                   toolName := some "search"
                   timestamp := some "t0"
                   result := some (.obj none "hits") } ] } := by
  have h := (c1_amended_completed_upsert c1WitnessState c1WitnessEvent 6 _ _
      { taskId := "t1"
        prompt := "q"
        actions :=
          [ { id := "c2"
              kind := .tool_started
              status := .running
              toolName := some "search"
              timestamp := some "t0" } ] }
      rfl rfl rfl (by decide) rfl).2
  exact h [] _ _ rfl rfl (by intro b hb; cases hb)

end CodeAgent
